import Mathlib

/-!
Shallow embedding of the lucky-backend server (src/server.js).

The program is an Express/Mongoose token-redemption backend.  We model the
MongoDB collection as a list of token documents, time as a natural number
(milliseconds since the epoch), and each HTTP handler as a function from the
current time and the store to a result and an updated store.

The redeem handler (`GET /redeem/:token`) is asynchronous: it awaits a
`findOne`, then runs its checks and in-memory field updates synchronously, and
finally awaits a `save`.  We therefore model it both as an atomic sequential
function (`redeem`) and as a two-phase session (`sessionStep`) whose phases can
interleave with other sessions, with the phase boundary exactly at the `await
tokenDoc.save()` point.
-/

namespace LuckyBackend

/-- A document of the `Token` collection (tokenSchema in server.js).
Timestamps are naturals (milliseconds); `redeemedAt`, `expiryDate` and
`customerPhone` are optional fields, absent by default. -/
structure Token where
  token : String
  productName : String
  batchId : String
  amount : Nat
  used : Bool
  redeemedAt : Option Nat
  expiryDate : Option Nat
  createdAt : Nat
  customerPhone : Option String
deriving DecidableEq, Repr

/-- The MongoDB collection: a list of token documents. -/
abbrev Store := List Token

/-- Outcome of the redeem handler, as seen by the caller:
404 "Invalid QR", 400 "QR expired", 400 "QR already used",
or 200 with the JSON body holding the amount. -/
inductive RedeemResult where
  | notFound
  | expired
  | alreadyUsed
  | success (amount : Nat)
deriving DecidableEq, Repr

/-- Model of `Token.findOne({ token: tokenValue })`: the first document whose
`token` field equals the given id. -/
def findToken (s : Store) (id : String) : Option Token :=
  s.find? (fun t => t.token == id)

/-- The expiry test of the redeem handler:
`tokenDoc.expiryDate && new Date() > tokenDoc.expiryDate`. -/
def isExpired (now : Nat) (t : Token) : Bool :=
  match t.expiryDate with
  | some e => decide (e < now)
  | none => false

/-- Result of the synchronous part of the redeem handler: either an early
error response, or the in-memory updated document that is about to be saved. -/
inductive ReadOutcome where
  | fail (r : RedeemResult)
  | proceed (doc : Token)
deriving DecidableEq, Repr

/-- The synchronous part of the redeem handler, given the result of the
awaited `findOne`: the not-found check, the expiry check, the used check, and
the in-memory field updates `amount = 100; used = true; redeemedAt = now`. -/
def redeemCheck (now : Nat) (s : Store) (id : String) : ReadOutcome :=
  match findToken s id with
  | none => .fail .notFound
  | some tokenDoc =>
    if isExpired now tokenDoc then .fail .expired
    else if tokenDoc.used then .fail .alreadyUsed
    else .proceed { tokenDoc with amount := 100, used := true, redeemedAt := some now }

/-- Model of `tokenDoc.save()`: write the document back over the stored
document with the same `token` key (unconditionally, not compare-and-swap). -/
def saveToken (s : Store) (doc : Token) : Store :=
  s.map (fun u => if u.token == doc.token then doc else u)

/-- The redeem handler `GET /redeem/:token` run in isolation (no concurrent
request between its `findOne` and its `save`). -/
def redeem (now : Nat) (s : Store) (id : String) : RedeemResult × Store :=
  match redeemCheck now s id with
  | .fail r => (r, s)
  | .proceed doc => (.success doc.amount, saveToken s doc)

/-! ### Token issuance (`GET /generate-tokens`) -/

/-- Numeric value of `new Date("2026-12-31")` in milliseconds. -/
def expiryDec31of2026 : Nat := 1798675200000

/-- The document built by `Token.create` inside the generate-tokens loop:
every field except the random token id is hardcoded, and the schema defaults
apply (`amount = 0`, `used = false`, `createdAt = now`). -/
def newToken (id : String) (now : Nat) : Token :=
  { token := id
    productName := "Elite Reward Product"
    batchId := "BATCH2026JAN"
    amount := 0
    used := false
    redeemedAt := none
    expiryDate := some expiryDec31of2026
    createdAt := now
    customerPhone := none }

/-- The generate-tokens loop: insert one document per id, in order.  The
unique index on `token` makes `Token.create` fail on a duplicate id; the
exception aborts the loop (documents created earlier remain) and the second
component reports whether the whole loop succeeded. -/
def createTokens (now : Nat) : List String → Store → Store × Bool
  | [], s => (s, true)
  | id :: rest, s =>
    if s.any (fun u => u.token == id) then (s, false)
    else createTokens now rest (s ++ [newToken id now])

/-- An HTTP reply: status code and body text. -/
structure HttpReply where
  status : Nat
  body : String
deriving DecidableEq, Repr

/-- The success body of the generate-tokens handler. -/
def genMessage : String := "✅ 100 business-ready tokens created"

/-- The `GET /generate-tokens` handler.  `freshIds` models the successive
outputs of `generateToken()` (crypto.randomBytes(16).toString("hex")); the
loop body runs exactly 100 times with no caller-supplied parameter. -/
def generateTokens (freshIds : Nat → String) (now : Nat) (s : Store) :
    HttpReply × Store :=
  let res := createTokens now ((List.range 100).map freshIds) s
  (if res.2 then { status := 200, body := genMessage }
   else { status := 500, body := "Error generating tokens" }, res.1)

/-! ### Admin stats (`GET /admin/stats`) -/

/-- The JSON body of the admin stats reply. -/
structure Stats where
  totalQrs : Nat
  redeemed : Nat
  remaining : Nat
  totalPaid : Nat
deriving DecidableEq, Repr

/-- The `GET /admin/stats` handler: `countDocuments()`,
`countDocuments({used: true})`, `countDocuments({used: false})`, and the
aggregate sum of `amount` over used documents (0 when the match is empty). -/
def dashboardStats (s : Store) : Stats :=
  { totalQrs := s.length
    redeemed := (s.filter (fun t => t.used)).length
    remaining := (s.filter (fun t => !t.used)).length
    totalPaid := ((s.filter (fun t => t.used)).map (fun t => t.amount)).sum }

/-! ### Admin authentication middleware -/

/-- The adminAuth middleware: reads the x-admin-password header (absent or
empty is falsy) and compares it with a plain string inequality against
ADMIN_PASSWORD; on failure it replies 401 with body "Unauthorized".
The comparison is the ordinary JavaScript `!==`, not a constant-time one. -/
def adminAuth (password : Option String) (adminPassword : String) : Bool :=
  match password with
  | none => false
  | some p => if p = "" then false else p == adminPassword

/-! ### Interleaved redemption sessions

The redeem handler suspends at `await tokenDoc.save()`; between the read
phase (findOne + checks + in-memory update) and the write phase (`save`),
another request on the same token can run.  A session is one in-flight
redeem request; a schedule picks which session performs its next phase. -/

/-- The progress of one redeem request: not yet started, holding an updated
document and about to save it, or finished with a result. -/
inductive SessionPhase where
  | start (id : String)
  | willSave (doc : Token)
  | done (r : RedeemResult)
deriving DecidableEq, Repr

/-- One atomic phase of a redeem session against the shared store. -/
def sessionStep (now : Nat) : SessionPhase → Store → SessionPhase × Store
  | .start id, s =>
    (match redeemCheck now s id with
     | .fail r => .done r
     | .proceed doc => .willSave doc, s)
  | .willSave doc, s => (.done (.success doc.amount), saveToken s doc)
  | .done r, s => (.done r, s)

/-- Run a schedule: each entry names the session that performs its next
atomic phase. -/
def runSchedule (now : Nat) : List Nat → List SessionPhase × Store → List SessionPhase × Store
  | [], st => st
  | i :: rest, (ps, s) =>
    match ps.get? i with
    | none => runSchedule now rest (ps, s)
    | some p =>
      let st := sessionStep now p s
      runSchedule now rest (ps.set i st.1, st.2)

/-! ### Reachable states -/

/-- Whether the stored document for id is marked used. -/
def usedIn (s : Store) (id : String) : Bool :=
  match findToken s id with
  | some tok => tok.used
  | none => false

/-- States reachable from a given time and store by letting time pass and
running the issuance and (sequential) redeem handlers. -/
inductive ReachableFrom : Nat → Store → Nat → Store → Prop where
  | refl (t : Nat) (s : Store) : ReachableFrom t s t s
  | tick (t2 : Nat) (h : ReachableFrom t s t1 s1) (hle : t1 ≤ t2) :
      ReachableFrom t s t2 s1
  | gen (ids : Nat → String) (h : ReachableFrom t s t1 s1) :
      ReachableFrom t s t1 (generateTokens ids t1 s1).2
  | red (id : String) (h : ReachableFrom t s t1 s1) :
      ReachableFrom t s t1 (redeem t1 s1 id).2

/-- States reachable from the empty store at time zero. -/
def Reachable (t : Nat) (s : Store) : Prop := ReachableFrom 0 [] t s

/-- The per-document state invariant at time t: `used` holds exactly when
`redeemedAt` is set, `redeemedAt` is not before `createdAt`, and the document
was created in the past. -/
def TokenInv (t : Nat) (tok : Token) : Prop :=
  (tok.used = true ↔ tok.redeemedAt.isSome) ∧
  (∀ r, tok.redeemedAt = some r → tok.createdAt ≤ r) ∧
  tok.createdAt ≤ t

/-- The store invariant: every document satisfies `TokenInv`. -/
def StoreInv (t : Nat) (s : Store) : Prop := ∀ tok ∈ s, TokenInv t tok

/-! ### Concrete sample documents and id supplies -/


/-- A freshly issued token document with no expiry, used in concrete runs. -/
def tkFresh : Token :=
  { token := "t1"
    productName := "P"
    batchId := "B"
    amount := 0
    used := false
    redeemedAt := none
    expiryDate := none
    createdAt := 0
    customerPhone := none }

/-- A fresh token whose expiry date is time 5. -/
def tkFreshExp5 : Token := { tkFresh with expiryDate := some 5 }

/-- An already-redeemed token (amount 100, redeemed at time 1). -/
def tkUsed : Token := { tkFresh with amount := 100, used := true, redeemedAt := some 1 }

/-- An already-redeemed token whose expiry date is time 5. -/
def tkUsedExp5 : Token := { tkUsed with expiryDate := some 5 }

/-- An id supply for concrete issuance runs. -/
def witnessIds : Nat → String := fun i => String.append "a" (Nat.repr i)

/-- A second, disjoint id supply. -/
def witnessIds2 : Nat → String := fun i => String.append "b" (Nat.repr i)

/-- An id supply for the C3 witness run. -/
def sampleIds : Nat → String := fun i => String.append "tok" (Nat.repr i)

/-! ### Basic lemmas about the embedded operations -/

lemma findToken_some_token {s : Store} {id : String} {tok : Token}
    (h : findToken s id = some tok) : tok.token = id := by
  have := List.find?_some h
  simpa using this

lemma findToken_some_mem {s : Store} {id : String} {tok : Token}
    (h : findToken s id = some tok) : tok ∈ s :=
  List.mem_of_find?_eq_some h

lemma redeemCheck_proceed_inv {now : Nat} {s : Store} {id : String} {doc : Token}
    (h : redeemCheck now s id = .proceed doc) :
    ∃ tok, findToken s id = some tok ∧ isExpired now tok = false ∧ tok.used = false ∧
      doc = { tok with amount := 100, used := true, redeemedAt := some now } := by
  unfold redeemCheck at h
  cases hf : findToken s id with
  | none => rw [hf] at h; cases h
  | some tok =>
    rw [hf] at h
    dsimp only at h
    by_cases he : isExpired now tok = true
    · rw [if_pos he] at h; cases h
    · rw [if_neg he] at h
      by_cases hu : tok.used = true
      · rw [if_pos hu] at h; cases h
      · rw [if_neg hu] at h
        cases h
        exact ⟨tok, rfl, by simpa using he, by simpa using hu, rfl⟩

lemma redeemCheck_fail_inv {now : Nat} {s : Store} {id : String} {r : RedeemResult}
    (h : redeemCheck now s id = .fail r) :
    r = .notFound ∨ r = .expired ∨ r = .alreadyUsed := by
  unfold redeemCheck at h
  cases hf : findToken s id with
  | none => rw [hf] at h; cases h; exact Or.inl rfl
  | some tok =>
    rw [hf] at h
    dsimp only at h
    by_cases he : isExpired now tok = true
    · rw [if_pos he] at h; cases h; exact Or.inr (Or.inl rfl)
    · rw [if_neg he] at h
      by_cases hu : tok.used = true
      · rw [if_pos hu] at h; cases h; exact Or.inr (Or.inr rfl)
      · rw [if_neg hu] at h; cases h

lemma redeem_cases (now : Nat) (s : Store) (id : String) :
    (∃ r, redeem now s id = (r, s) ∧
      (r = .notFound ∨ r = .expired ∨ r = .alreadyUsed)) ∨
    ∃ tok, findToken s id = some tok ∧ tok.used = false ∧ isExpired now tok = false ∧
      redeem now s id =
        (.success 100, saveToken s { tok with amount := 100, used := true, redeemedAt := some now }) := by
  unfold redeem
  cases hc : redeemCheck now s id with
  | fail r => exact Or.inl ⟨r, rfl, redeemCheck_fail_inv hc⟩
  | proceed doc =>
    right
    rcases redeemCheck_proceed_inv hc with ⟨tok, hf, hexp, hused, rfl⟩
    exact ⟨tok, hf, hused, hexp, rfl⟩

lemma findToken_saveToken (doc : Token) (id : String) (hid : doc.token = id) :
    ∀ s : Store, (findToken s id).isSome → findToken (saveToken s doc) id = some doc := by
  intro s
  induction s with
  | nil => intro h; simp [findToken] at h
  | cons u rest ih =>
    intro h
    by_cases hu : u.token = id
    · simp [findToken, saveToken, hu, hid]
    · unfold findToken saveToken at *
      simp only [List.map_cons] at *
      have hcond : (if (u.token == doc.token) = true then doc else u) = u := by
        simp [hid, hu]
      rw [hcond, List.find?_cons_of_neg _ (by simp [hu])]
      rw [List.find?_cons_of_neg _ (by simp [hu])] at h
      exact ih h

/-! ### The claims -/
/-- Claim C1.  In the interleaved two-phase model of the redeem handler, the
at-most-one-winner property fails on the code: two racing redeem requests on
the same freshly-issued token can both observe success, because the write is
an unconditional save performed after a separate read-and-check rather than a
compare-and-swap conditioned on the state still being unredeemed.  In the
schedule below both sessions run their read phase before either saves, and
both finish with the success outcome; a strictly sequential second redeem
would instead have reported already-used (second conjunct). -/
theorem race_two_winners :
    runSchedule 5 [0, 1, 0, 1] ([.start "t1", .start "t1"], [tkFresh]) =
      ([.done (.success 100), .done (.success 100)],
       [{ tkFresh with amount := 100, used := true, redeemedAt := some 5 }]) ∧
    (redeem 5 (redeem 5 [tkFresh] "t1").2 "t1").1 = .alreadyUsed := by
  exact ⟨by decide, by decide⟩

/-- Claim C2: if the stored token has an expiry date strictly before the
current time, redeem fails with the expired outcome and leaves the store
unchanged, whatever the used flag holds — the expiry check runs before the
already-used check. -/
theorem expiry_precedes_used_check (now : Nat) (s : Store) (id : String)
    (tok : Token) (e : Nat) (hfind : findToken s id = some tok)
    (hexp : tok.expiryDate = some e) (hlt : e < now) :
    redeem now s id = (.expired, s) := by
  simp [redeem, redeemCheck, hfind, isExpired, hexp, hlt]

/-- Witness for C2, on an already-used token whose expiry has passed. -/
theorem expiry_precedes_used_check_witness :
    findToken [tkUsedExp5] "t1" = some tkUsedExp5 ∧
    tkUsedExp5.expiryDate = some 5 ∧ (5 : Nat) < 9 ∧ tkUsedExp5.used = true ∧
    redeem 9 [tkUsedExp5] "t1" = (.expired, [tkUsedExp5]) :=
  ⟨by decide, by decide, by decide, by decide,
   expiry_precedes_used_check 9 [tkUsedExp5] "t1" tkUsedExp5 5
     (by decide) (by decide) (by decide)⟩

/-- Claim C8: when no stored token carries the requested id, redeem fails
with the not-found outcome and leaves the store unchanged, and it does so at
every time — the lookup check runs before the expiry and used checks. -/
theorem redeem_not_found_first (s : Store) (id : String)
    (h : findToken s id = none) :
    ∀ now : Nat, redeem now s id = (.notFound, s) := by
  intro now
  simp [redeem, redeemCheck, h]

/-- Witness for C8. -/
theorem redeem_not_found_first_witness :
    findToken [tkFresh] "zz" = none ∧
    redeem 7 [tkFresh] "zz" = (.notFound, [tkFresh]) :=
  ⟨by decide, redeem_not_found_first [tkFresh] "zz" (by decide) 7⟩

/-- Claim C9: every successful redemption returns the constant amount 100 —
independently of the token's productName, batchId or any other field — and
the amount stored on the winning token equals the amount returned. -/
theorem redeem_amount_always_100 (now : Nat) (s : Store) (id : String) (a : Nat)
    (h : (redeem now s id).1 = .success a) :
    a = 100 ∧
    ∃ doc, findToken (redeem now s id).2 id = some doc ∧ doc.amount = 100 := by
  rcases redeem_cases now s id with ⟨r, heq, hr⟩ | ⟨tok, hf, hused, hexp, heq⟩
  · rw [heq] at h
    rcases hr with rfl | rfl | rfl <;> cases h
  · rw [heq] at h ⊢
    dsimp only at h ⊢
    cases h
    refine ⟨rfl, { tok with amount := 100, used := true, redeemedAt := some now },
      ?_, rfl⟩
    refine findToken_saveToken _ id ?_ s ?_
    · have h2 : tok.token = id := findToken_some_token hf
      exact h2
    · rw [hf]; rfl

/-- Witness for C9. -/
theorem redeem_amount_always_100_witness :
    (redeem 5 [tkFresh] "t1").1 = .success 100 ∧
    (100 = 100 ∧
     ∃ doc, findToken (redeem 5 [tkFresh] "t1").2 "t1" = some doc ∧
       doc.amount = 100) :=
  ⟨by decide, redeem_amount_always_100 5 [tkFresh] "t1" 100 (by decide)⟩

/-- Claim C10: whenever the redeem handler fails — with not-found, expired or
already-used — the store is left exactly as it was. -/
theorem failed_redeem_preserves_store (now : Nat) (s : Store) (id : String)
    (h : (redeem now s id).1 = .notFound ∨ (redeem now s id).1 = .expired ∨
         (redeem now s id).1 = .alreadyUsed) :
    (redeem now s id).2 = s := by
  rcases redeem_cases now s id with ⟨r, heq, hmem⟩ | ⟨tok, hf, hused, hexp, heq⟩
  · rw [heq]
  · rw [heq] at h
    rcases h with h | h | h <;> cases h

/-- Witness for C10, on an already-used token. -/
theorem failed_redeem_preserves_store_witness :
    (redeem 5 [tkUsed] "t1").1 = .alreadyUsed ∧
    (redeem 5 [tkUsed] "t1").2 = [tkUsed] :=
  ⟨by decide,
   failed_redeem_preserves_store 5 [tkUsed] "t1" (Or.inr (Or.inr (by decide)))⟩

/-- Counterexample to claim C4 as stated: after a successful first
redemption, a later redeem of the same now-redeemed token need not fail with
already-used — if the expiry date passes in between, the expiry check (which
runs first) makes it fail with expired instead.  Token "t1" expires at time
5: redeeming at time 3 succeeds, redeeming again at time 10 yields expired,
not already-used. -/
theorem second_redeem_after_expiry_not_already_used :
    (redeem 3 [tkFreshExp5] "t1").1 = .success 100 ∧
    (redeem 10 (redeem 3 [tkFreshExp5] "t1").2 "t1").1 = .expired ∧
    (redeem 10 (redeem 3 [tkFreshExp5] "t1").2 "t1").1 ≠ .alreadyUsed := by
  exact ⟨by decide, by decide, by decide⟩

/-- Claim C4 as amended: for a stored, unused token, a redeem at a time at
which it is not expired succeeds with amount 100, and every subsequent redeem
performed at a time at which the token is still not expired fails with
already-used. -/
theorem first_redeem_succeeds_second_already_used (now1 now2 : Nat)
    (s : Store) (id : String) (tok : Token)
    (hfind : findToken s id = some tok) (hused : tok.used = false)
    (hexp1 : isExpired now1 tok = false) (hexp2 : isExpired now2 tok = false) :
    (redeem now1 s id).1 = .success 100 ∧
    (redeem now2 (redeem now1 s id).2 id).1 = .alreadyUsed := by
  have hc : redeemCheck now1 s id =
      .proceed { tok with amount := 100, used := true, redeemedAt := some now1 } := by
    simp [redeemCheck, hfind, hexp1, hused]
  have h1 : redeem now1 s id =
      (.success 100,
       saveToken s { tok with amount := 100, used := true, redeemedAt := some now1 }) := by
    simp [redeem, hc]
  have hf2 : findToken
      (saveToken s { tok with amount := 100, used := true, redeemedAt := some now1 }) id =
      some { tok with amount := 100, used := true, redeemedAt := some now1 } := by
    refine findToken_saveToken _ id ?_ s ?_
    · have h2 : tok.token = id := findToken_some_token hfind
      exact h2
    · rw [hfind]; rfl
  have hexp2a : isExpired now2
      { tok with amount := 100, used := true, redeemedAt := some now1 } = false := hexp2
  refine ⟨by rw [h1], ?_⟩
  rw [h1]
  dsimp only
  simp [redeem, redeemCheck, hf2, hexp2a]

/-- Witness for the amended C4. -/
theorem first_redeem_succeeds_second_already_used_witness :
    findToken [tkFresh] "t1" = some tkFresh ∧ tkFresh.used = false ∧
    isExpired 3 tkFresh = false ∧ isExpired 4 tkFresh = false ∧
    ((redeem 3 [tkFresh] "t1").1 = .success 100 ∧
     (redeem 4 (redeem 3 [tkFresh] "t1").2 "t1").1 = .alreadyUsed) :=
  ⟨by decide, by decide, by decide, by decide,
   first_redeem_succeeds_second_already_used 3 4 [tkFresh] "t1" tkFresh
     (by decide) (by decide) (by decide) (by decide)⟩

/-- Counterexample to claim C5 as stated: the issuance handler takes no
caller-supplied productName, batchId, count or expiryDate, always creates
exactly 100 tokens with the hardcoded product name, and its reply is a fixed
confirmation message rather than the list of created ids — two runs that
create entirely different id lists return the identical reply. -/
theorem generate_tokens_ignores_request :
    (generateTokens witnessIds 0 []).1 = (generateTokens witnessIds2 0 []).1 ∧
    (generateTokens witnessIds 0 []).2.map Token.token ≠
      (generateTokens witnessIds2 0 []).2.map Token.token ∧
    (generateTokens witnessIds 0 []).1.body = genMessage ∧
    (generateTokens witnessIds 0 []).2.length = 100 ∧
    ((generateTokens witnessIds 0 []).2.all
      (fun t => t.productName == "Elite Reward Product")) = true := by
  exact ⟨by decide, by decide, by decide, by decide, by decide⟩

lemma createTokens_of_fresh (now : Nat) :
    ∀ (l : List String) (s : Store), l.Nodup →
      (∀ id ∈ l, s.any (fun u => u.token == id) = false) →
      createTokens now l s = (s ++ l.map (fun id => newToken id now), true) := by
  intro l
  induction l with
  | nil => intro s _ _; simp [createTokens]
  | cons id rest ih =>
    intro s hnd hfresh
    have h0 : s.any (fun u => u.token == id) = false :=
      hfresh id (List.mem_cons_self id rest)
    have hnd2 := List.nodup_cons.1 hnd
    have step : createTokens now (id :: rest) s =
        createTokens now rest (s ++ [newToken id now]) := by
      simp only [createTokens]
      rw [if_neg (by simp [h0])]
    have hfresh2 : ∀ id2 ∈ rest,
        (s ++ [newToken id now]).any (fun u => u.token == id2) = false := by
      intro id2 hid2
      have hne : id ≠ id2 := fun he => hnd2.1 (he ▸ hid2)
      simp [List.any_append, hfresh id2 (List.mem_cons_of_mem id hid2), newToken, hne]
    rw [step, ih (s ++ [newToken id now]) hnd2.2 hfresh2]
    simp

/-- Claim C5 as amended: on a run whose 100 generated ids are pairwise
distinct and absent from the store, the handler appends exactly the 100
hardcoded token documents — product name "Elite Reward Product", batch id
"BATCH2026JAN", expiry 2026-12-31, amount 0, unused — and replies 200 with
the fixed confirmation message (the ids are not returned). -/
theorem generate_tokens_hardcoded_batch (ids : Nat → String) (now : Nat)
    (s : Store) (hnodup : ((List.range 100).map ids).Nodup)
    (hfresh : ∀ id ∈ (List.range 100).map ids,
      s.any (fun u => u.token == id) = false) :
    generateTokens ids now s =
      ({ status := 200, body := genMessage },
       s ++ ((List.range 100).map ids).map (fun id => newToken id now)) := by
  have h := createTokens_of_fresh now ((List.range 100).map ids) s hnodup hfresh
  show (if (createTokens now ((List.range 100).map ids) s).2 = true then
      ({ status := 200, body := genMessage } : HttpReply)
    else { status := 500, body := "Error generating tokens" },
    (createTokens now ((List.range 100).map ids) s).1) = _
  rw [h]
  rfl

/-- Witness for the amended C5. -/
theorem generate_tokens_hardcoded_batch_witness :
    ((List.range 100).map witnessIds).Nodup ∧
    (∀ id ∈ (List.range 100).map witnessIds,
      ([] : Store).any (fun u => u.token == id) = false) ∧
    generateTokens witnessIds 0 [] =
      ({ status := 200, body := genMessage },
       [] ++ ((List.range 100).map witnessIds).map (fun id => newToken id 0)) :=
  ⟨by decide, by decide,
   generate_tokens_hardcoded_batch witnessIds 0 [] (by decide) (by decide)⟩

lemma length_filter_add (p : Token → Bool) (s : Store) :
    (s.filter p).length + (s.filter (fun t => !p t)).length = s.length := by
  induction s with
  | nil => rfl
  | cons u rest ih =>
    by_cases h : p u = true <;> simp [List.filter_cons, h] <;> omega

/-- Claim C6: on a store of n tokens of which exactly k are redeemed, the
stats handler reports totalQrs = n, redeemed = k, remaining = n - k, and
totalPaid equal to the sum of the amounts of the k redeemed tokens. -/
theorem dashboard_stats_consistent (s : Store) (n k : Nat)
    (hn : s.length = n) (hk : (s.filter (fun t => t.used)).length = k) :
    dashboardStats s =
      { totalQrs := n, redeemed := k, remaining := n - k,
        totalPaid := ((s.filter (fun t => t.used)).map (fun t => t.amount)).sum } := by
  have h := length_filter_add (fun t => t.used) s
  unfold dashboardStats
  simp only [Stats.mk.injEq]
  refine ⟨hn, hk, ?_, trivial⟩
  omega

/-- Witness for C6: three issued tokens, two redeemed at 100 each. -/
theorem dashboard_stats_consistent_witness :
    ([tkUsed, tkUsed, tkFresh] : Store).length = 3 ∧
    (([tkUsed, tkUsed, tkFresh] : Store).filter (fun t => t.used)).length = 2 ∧
    dashboardStats [tkUsed, tkUsed, tkFresh] =
      { totalQrs := 3, redeemed := 2, remaining := 1,
        totalPaid := ((([tkUsed, tkUsed, tkFresh] : Store).filter
          (fun t => t.used)).map (fun t => t.amount)).sum } :=
  ⟨by decide, by decide, dashboard_stats_consistent _ 3 2 (by decide) (by decide)⟩

lemma mem_saveToken {tok doc : Token} {s : Store}
    (h : tok ∈ saveToken s doc) : tok ∈ s ∨ tok = doc := by
  unfold saveToken at h
  rcases List.mem_map.1 h with ⟨u, hu, heq⟩
  by_cases hc : (u.token == doc.token) = true
  · rw [if_pos hc] at heq
    exact Or.inr heq.symm
  · rw [if_neg hc] at heq
    exact Or.inl (heq ▸ hu)

lemma createTokens_shape (now : Nat) :
    ∀ (l : List String) (s : Store),
      ∃ l2, (createTokens now l s).1 = s ++ l2 ∧
        ∀ tok ∈ l2, ∃ id, tok = newToken id now := by
  intro l
  induction l with
  | nil => intro s; exact ⟨[], by simp [createTokens], by simp⟩
  | cons id rest ih =>
    intro s
    by_cases h : s.any (fun u => u.token == id) = true
    · refine ⟨[], ?_, by simp⟩
      simp only [createTokens]
      rw [if_pos h]
      simp
    · rcases ih (s ++ [newToken id now]) with ⟨l2, hl2, hall⟩
      refine ⟨newToken id now :: l2, ?_, ?_⟩
      · simp only [createTokens]
        rw [if_neg h, hl2]
        simp
      · intro tok htok
        rcases List.mem_cons.1 htok with rfl | htok2
        · exact ⟨id, rfl⟩
        · exact hall tok htok2

lemma generateTokens_store (ids : Nat → String) (now : Nat) (s : Store) :
    ∃ l2, (generateTokens ids now s).2 = s ++ l2 ∧
      ∀ tok ∈ l2, ∃ id, tok = newToken id now := by
  rcases createTokens_shape now ((List.range 100).map ids) s with ⟨l2, hl2, hall⟩
  exact ⟨l2, hl2, hall⟩

lemma tokenInv_mono {t t2 : Nat} {tok : Token} (h : TokenInv t tok)
    (hle : t ≤ t2) : TokenInv t2 tok :=
  ⟨h.1, h.2.1, le_trans h.2.2 hle⟩

lemma storeInv_gen {t : Nat} {s : Store} (ids : Nat → String)
    (h : StoreInv t s) : StoreInv t (generateTokens ids t s).2 := by
  rcases generateTokens_store ids t s with ⟨l2, hl2, hall⟩
  rw [hl2]
  intro tok htok
  rcases List.mem_append.1 htok with h1 | h2
  · exact h tok h1
  · rcases hall tok h2 with ⟨id, rfl⟩
    exact ⟨by simp [newToken], by simp [newToken], le_refl t⟩

lemma storeInv_redeem {t : Nat} {s : Store} (id : String)
    (h : StoreInv t s) : StoreInv t (redeem t s id).2 := by
  rcases redeem_cases t s id with ⟨r, heq, hor⟩ | ⟨tok, hf, hused, hexp, heq⟩
  · rw [heq]
    exact h
  · rw [heq]
    dsimp only
    intro tok2 htok2
    rcases mem_saveToken htok2 with h1 | rfl
    · exact h tok2 h1
    · have hinv := h tok (findToken_some_mem hf)
      refine ⟨by simp, ?_, hinv.2.2⟩
      intro r hr
      cases hr
      exact hinv.2.2

lemma reachableFrom_inv {t : Nat} {s : Store} {t1 : Nat} {s1 : Store}
    (h : ReachableFrom t s t1 s1) :
    t ≤ t1 ∧ (StoreInv t s → StoreInv t1 s1) := by
  induction h with
  | refl => exact ⟨le_refl _, fun hs => hs⟩
  | tick t2 h hle ih =>
    exact ⟨le_trans ih.1 hle,
      fun hs tok htok => tokenInv_mono (ih.2 hs tok htok) hle⟩
  | gen ids h ih => exact ⟨ih.1, fun hs => storeInv_gen ids (ih.2 hs)⟩
  | red id h ih => exact ⟨ih.1, fun hs => storeInv_redeem id (ih.2 hs)⟩

lemma token_saveFun (doc u : Token) :
    (if (u.token == doc.token) = true then doc else u).token = u.token := by
  by_cases h : (u.token == doc.token) = true
  · rw [if_pos h]
    exact (beq_iff_eq.mp h).symm
  · rw [if_neg h]

lemma findToken_saveToken_eq (s : Store) (doc : Token) (id : String) :
    findToken (saveToken s doc) id =
      (findToken s id).map
        (fun u => if (u.token == doc.token) = true then doc else u) := by
  unfold findToken saveToken
  rw [List.find?_map]
  have hpf : ((fun t : Token => t.token == id) ∘
      fun u => if (u.token == doc.token) = true then doc else u) =
      (fun t : Token => t.token == id) := by
    funext u
    show ((if (u.token == doc.token) = true then doc else u).token == id) = (u.token == id)
    rw [token_saveFun]
  rw [hpf]

lemma usedIn_append {s : Store} {id : String} (l : Store)
    (h : usedIn s id = true) : usedIn (s ++ l) id = true := by
  unfold usedIn findToken at *
  rw [List.find?_append]
  cases hf : s.find? (fun t => t.token == id) with
  | none =>
    rw [hf] at h
    exact absurd h (by simp)
  | some tok =>
    rw [hf] at h
    simpa using h

lemma usedIn_saveToken {s : Store} {id : String} (doc : Token)
    (hdoc : doc.used = true) (h : usedIn s id = true) :
    usedIn (saveToken s doc) id = true := by
  unfold usedIn at *
  rw [findToken_saveToken_eq]
  cases hf : findToken s id with
  | none =>
    rw [hf] at h
    exact absurd h (by simp)
  | some tok =>
    rw [hf] at h
    dsimp only [Option.map]
    by_cases hd : (tok.token == doc.token) = true
    · rw [if_pos hd]
      exact hdoc
    · rw [if_neg hd]
      exact h

lemma usedIn_redeem {s : Store} {id2 : String} (now : Nat) (id : String)
    (h : usedIn s id2 = true) : usedIn (redeem now s id).2 id2 = true := by
  rcases redeem_cases now s id with ⟨r, heq, hor⟩ | ⟨tok, hf, hused, hexp, heq⟩
  · rw [heq]
    exact h
  · rw [heq]
    dsimp only
    exact usedIn_saveToken _ rfl h

lemma usedIn_gen {s : Store} {id : String} (ids : Nat → String) (now : Nat)
    (h : usedIn s id = true) : usedIn (generateTokens ids now s).2 id = true := by
  rcases generateTokens_store ids now s with ⟨l2, hl2, hall⟩
  rw [hl2]
  exact usedIn_append l2 h

lemma usedIn_reachable {t : Nat} {s : Store} {t1 : Nat} {s1 : Store}
    (h : ReachableFrom t s t1 s1) :
    ∀ id, usedIn s id = true → usedIn s1 id = true := by
  induction h with
  | refl => exact fun id hu => hu
  | tick t2 h hle ih => exact ih
  | gen ids h ih => exact fun id hu => usedIn_gen ids _ (ih id hu)
  | red id2 h ih => exact fun id hu => usedIn_redeem _ id2 (ih id hu)

/-- Claim C3: in every reachable store, a token is marked used exactly when
its redeemedAt is set, and redeemedAt is never earlier than createdAt;
moreover the used mark is monotone — once a token id reads as used, it reads
as used in every store reachable from there by any further sequence of
issuance and redemption operations (the Redeemed state never reverses). -/
theorem state_monotone_invariant (t : Nat) (s : Store) (h : Reachable t s) :
    (∀ tok ∈ s, (tok.used = true ↔ tok.redeemedAt.isSome) ∧
      ∀ r, tok.redeemedAt = some r → tok.createdAt ≤ r) ∧
    (∀ t1 s1, ReachableFrom t s t1 s1 →
      ∀ id, usedIn s id = true → usedIn s1 id = true) := by
  constructor
  · have h2 := (reachableFrom_inv h).2
      (fun tok htok => absurd htok (List.not_mem_nil tok))
    exact fun tok htok => ⟨(h2 tok htok).1, (h2 tok htok).2.1⟩
  · exact fun t1 s1 h1 id hu => usedIn_reachable h1 id hu

/-- Witness for C3, at the store reached by one issuance run at time 0. -/
theorem state_monotone_invariant_witness :
    (∀ tok ∈ (generateTokens sampleIds 0 []).2,
      (tok.used = true ↔ tok.redeemedAt.isSome) ∧
      ∀ r, tok.redeemedAt = some r → tok.createdAt ≤ r) ∧
    (∀ t1 s1, ReachableFrom 0 (generateTokens sampleIds 0 []).2 t1 s1 →
      ∀ id, usedIn (generateTokens sampleIds 0 []).2 id = true →
        usedIn s1 id = true) :=
  state_monotone_invariant 0 (generateTokens sampleIds 0 []).2
    (ReachableFrom.gen sampleIds (ReachableFrom.refl 0 []))


end LuckyBackend
